import Mathlib

/-!
# Verification of the turing-smart-screen driver core (`src/screen.rs`)

Shallow embedding of the command encoder, the orientation frame, the
brightness operation and the bitmap streamer (`draw`) of `screen.rs`.
Machine integers (`u8`, `u16`, `u32`) are modelled as `Nat` with explicit
`% 2 ^ w` at the points where the Rust code performs an `as u8` cast; all
intermediate u16 arithmetic in the encoder stays below `2 ^ 16` for the
input ranges the theorems quantify over, so plain `Nat` arithmetic agrees
with the Rust wrapping semantics there.

The serial port is modelled as an oracle `Transport` giving the result of
each successive `write` call: `some n` for `Ok(n)` (n bytes reported
written), `none` for `Err(_)`.  Every operation returns its result
together with the list of byte buffers it passed to `write`, in order,
the failing call included.
-/

namespace TuringScreen

/-- `pub const WIDTH: u16 = 320;` -/
def WIDTH : Nat := 320

/-- `pub const HEIGHT: u16 = 480;` -/
def HEIGHT : Nat := 480

/-- `pub enum Orientation` from `screen.rs`. -/
inductive Orientation where
  | Portrait
  | ReversePortrait
  | Landscape
  | ReverseLandscape
deriving DecidableEq, Repr

/-- The discriminant of `Orientation` (`orientation as u8`). -/
def Orientation.toNat : Orientation → Nat
  | .Portrait => 0
  | .ReversePortrait => 1
  | .Landscape => 2
  | .ReverseLandscape => 3

/-- `pub enum ScreenCommand` from `screen.rs` (the source spells
`SetBrigthness` with this typo). -/
inductive ScreenCommand where
  | Reset
  | Clear
  | ToBlack
  | ScreenOff
  | ScreenOn
  | SetBrigthness
  | SetOrientation
  | DisplayBitmap
deriving DecidableEq, Repr

/-- The discriminant of `ScreenCommand` (`cmd as u8`). -/
def ScreenCommand.toNat : ScreenCommand → Nat
  | .Reset => 101
  | .Clear => 102
  | .ToBlack => 103
  | .ScreenOff => 108
  | .ScreenOn => 109
  | .SetBrigthness => 110
  | .SetOrientation => 121
  | .DisplayBitmap => 197

/-- `ScreenError` from `errors.rs`. -/
inductive ScreenError where
  | WriteError
  | WrongImageSize
deriving DecidableEq, Repr

/-- Outcome of one driver operation.  `ok`/`err` mirror
`Result<(), ScreenError>`; `panicked` marks the checked-arithmetic panic
of a Rust debug build (integer underflow), which aborts before any
further effect. -/
inductive OpResult where
  | ok
  | err (e : ScreenError)
  | panicked
deriving DecidableEq, Repr

/-- The serial port, reduced to its observable behaviour: `result i` is
what the `i`-th `write` call (counting from 0) returns — `some n` for
`Ok(n)`, `none` for `Err(_)`. -/
structure Transport where
  result : Nat → Option Nat

/-- A transport whose writes always succeed, always reporting 0 bytes
written (the driver never reads the count, see `writeSeq`). -/
def tOk : Transport := ⟨fun _ => some 0⟩

/-- Issue the buffers in `bs` to the transport with successive `write`
calls starting at call index `k`, mirroring a `for`-sequence of
`self.port.write(&b).map_err(|_| WriteError)?;` statements: stop at the
first failing call with `WriteError`.  Returns the operation result and
the buffers actually passed to `write` (the failing call included).
The value carried by `Ok(n)` is discarded, exactly as `?` discards it in
the source. -/
def writeSeq (t : Transport) : Nat → List (List Nat) → OpResult × List (List Nat)
  | _, [] => (OpResult.ok, [])
  | k, b :: bs =>
    match t.result k with
    | some _ => ((writeSeq t (k + 1) bs).1, b :: (writeSeq t (k + 1) bs).2)
    | none => (OpResult.err ScreenError.WriteError, [b])

/-- The 6-byte buffer built by `send_command` in `screen.rs`:
```
byte_buffer[0] = (x >> 2) as u8;
byte_buffer[1] = (((x & 3) << 6) + (y >> 4)) as u8;
byte_buffer[2] = (((y & 15) << 4) + (ex >> 6)) as u8;
byte_buffer[3] = (((ex & 63) << 2) + (ey >> 8)) as u8;
byte_buffer[4] = (ey & 255) as u8;
byte_buffer[5] = cmd as u8;
```
Note the source combines the fields with `+`, not `|`. -/
def sendCommandFrame (x y ex ey : Nat) (cmd : ScreenCommand) : List Nat :=
  [ (x >>> 2) % 256,
    (((x &&& 3) <<< 6) + (y >>> 4)) % 256,
    (((y &&& 15) <<< 4) + (ex >>> 6)) % 256,
    (((ex &&& 63) <<< 2) + (ey >>> 8)) % 256,
    (ey &&& 255) % 256,
    cmd.toNat ]

/-- `fn send_command`: build the 6-byte frame and write it with a single
`write` call. -/
def send_command (t : Transport) (x y ex ey : Nat) (cmd : ScreenCommand) :
    OpResult × List (List Nat) :=
  writeSeq t 0 [sendCommandFrame x y ex ey cmd]

/-- The 11-byte buffer built by `fn orientation`:
`vec![0, 0, 0, 0, 0, SetOrientation as u8, (orientation as u8) + 100, 3, 200, 4, 0]`. -/
def orientationFrame (o : Orientation) : List Nat :=
  [0, 0, 0, 0, 0, ScreenCommand.SetOrientation.toNat, o.toNat + 100, 3, 200, 4, 0]

/-- `pub fn orientation`: write the 11-byte orientation frame with a
single `write` call. -/
def orientation (t : Transport) (o : Orientation) : OpResult × List (List Nat) :=
  writeSeq t 0 [orientationFrame o]

/-- `pub fn brightness`: `let level = 255 - level;` (u8 arithmetic, which
cannot underflow since `level ≤ 255`) then
`send_command(level as u16, 0, 0, 0, SetBrigthness)`. -/
def brightness (t : Transport) (level : Nat) : OpResult × List (List Nat) :=
  send_command t (255 - level) 0 0 0 ScreenCommand.SetBrigthness

/-- One `image::Rgb<u8>` pixel; channels are `Nat`s, kept below 256 by
hypotheses wherever a claim is about 8-bit colors. -/
structure Pixel where
  r : Nat
  g : Nat
  b : Nat
deriving DecidableEq, Repr

/-- An `ImageBuffer<Rgb<u8>, Vec<u8>>`: a width, a height and the pixels
in row-major order (`img.pixels()` iterates row-major), with the
container invariant that there are exactly `width * height` pixels. -/
structure ImageBuffer where
  width : Nat
  height : Nat
  pixels : List Pixel
  hsize : pixels.length = width * height

/-- The RGB565 value computed per pixel in `draw`:
`let r = (pixel[0] >> 3) as u16; let g = (pixel[1] >> 2) as u16;
let b = (pixel[2] >> 3) as u16; let rgb565 = (r << 11) | (g << 5) | b;`. -/
def rgb565 (p : Pixel) : Nat :=
  ((p.r >>> 3) <<< 11) ||| ((p.g >>> 2) <<< 5) ||| (p.b >>> 3)

/-- The two bytes pushed per pixel in `draw`:
`bytes.push((rgb565 & 0xFF) as u8); bytes.push((rgb565 >> 8) as u8);`
— low byte first. -/
def pixelBytes (p : Pixel) : List Nat :=
  [rgb565 p &&& 255, (rgb565 p >>> 8) % 256]

/-- The byte buffer built for one chunk of pixels (the inner
`for pixel in chunk` loop of `draw`). -/
def chunkBytes (c : List Pixel) : List Nat :=
  (c.map pixelBytes).flatten

/-- `pixels.chunks_exact(n)` of the Rust standard library: the list of
full `n`-sized chunks, paired with the remainder (the final fewer-than-`n`
elements).  `chunks_exact` requires `n > 0`; for `n = 0` this returns no
chunks (the source never reaches that case without panicking, see
`draw`).  Structured as a fuel-driven worker so that it computes by
structural recursion. -/
def chunksExactGo (n : Nat) : Nat → List Pixel → List (List Pixel) × List Pixel
  | 0, xs => ([], xs)
  | fuel + 1, xs =>
    if 0 < n ∧ n ≤ xs.length then
      (xs.take n :: (chunksExactGo n fuel (xs.drop n)).1,
       (chunksExactGo n fuel (xs.drop n)).2)
    else
      ([], xs)

/-- Entry point: `xs.length` units of fuel always suffice, since every
chunk consumes at least one element. -/
def chunksExact (n : Nat) (xs : List Pixel) : List (List Pixel) × List Pixel :=
  chunksExactGo n xs.length xs

/-- The size check of `draw`:
`(img.width() == WIDTH.into() || img.height() == HEIGHT.into()) ||
 (img.width() == HEIGHT.into() || img.height() == WIDTH.into())` —
a disjunction over the individual dimensions, not a check of the pair. -/
def sizeCheck (w h : Nat) : Bool :=
  ((w == WIDTH) || (h == HEIGHT)) || ((w == HEIGHT) || (h == WIDTH))

/-- All byte buffers `draw` passes to `write`, in order: the region
command for `(0, 0, width-1, height-1)` with `DisplayBitmap`, then one
buffer per full `width*8`-pixel chunk, then one buffer for the remainder
when it is nonempty. -/
def drawBuffers (img : ImageBuffer) : List (List Nat) :=
  sendCommandFrame 0 0 (img.width - 1) (img.height - 1) ScreenCommand.DisplayBitmap ::
    ((chunksExact (img.width * 8) img.pixels).1.map chunkBytes ++
      (if (chunksExact (img.width * 8) img.pixels).2.isEmpty then []
       else [chunkBytes (chunksExact (img.width * 8) img.pixels).2]))

/-- `pub fn draw`: reject wrong sizes, then send the region command and
stream the pixel chunks.  When the size check passes with `width = 0` or
`height = 0`, the source evaluates `width - 1` (resp. `height - 1`) on an
unsigned `u32` equal to 0 before any write: a debug build panics on the
underflow, modelled as `panicked` with no writes issued. -/
def draw (img : ImageBuffer) (t : Transport) : OpResult × List (List Nat) :=
  if sizeCheck img.width img.height then
    if img.width == 0 || img.height == 0 then (OpResult.panicked, [])
    else writeSeq t 0 (drawBuffers img)
  else (OpResult.err ScreenError.WrongImageSize, [])

/-! ## Spec-side definitions

The two definitions below follow the wording of the specification (§4.1
bit layout with bitwise OR, and its §8 inverse-decoding property), for
comparison against the source-derived `sendCommandFrame`. -/

/-- The 6-byte region frame exactly as the spec's §4.1 describes it:
fields combined with bitwise OR, each entry reduced to 8 bits. -/
def specRegionFrame (x y ex ey : Nat) (cmd : ScreenCommand) : List Nat :=
  [ (x >>> 2) % 256,
    (((x &&& 3) <<< 6) ||| (y >>> 4)) % 256,
    (((y &&& 15) <<< 4) ||| (ex >>> 6)) % 256,
    (((ex &&& 63) <<< 2) ||| (ey >>> 8)) % 256,
    (ey &&& 255) % 256,
    cmd.toNat ]

/-- Decoding a 6-byte region frame with the inverse shifts and masks of
the §4.1 layout: recovers `(x, y, ex, ey, opcode)`.  (The inverse fields
are disjoint, so `+` coincides with bitwise OR here.) -/
def decodeRegionFrame : List Nat → Nat × Nat × Nat × Nat × Nat
  | [b0, b1, b2, b3, b4, b5] =>
    ((b0 <<< 2) + (b1 >>> 6),
     ((b1 &&& 63) <<< 4) + (b2 >>> 4),
     ((b2 &&& 15) <<< 6) + (b3 >>> 2),
     ((b3 &&& 3) <<< 8) + b4,
     b5)
  | _ => (0, 0, 0, 0, 0)

/-! ## Concrete inputs used by counterexamples and witnesses -/

/-- A 320×1 all-black buffer: not a valid panel resolution as a pair,
yet it passes `draw`'s disjunctive size check. -/
def img320x1 : ImageBuffer :=
  ⟨320, 1, List.replicate 320 ⟨0, 0, 0⟩, by rw [List.length_replicate]⟩

/-- A 100×100 buffer: fails the size check. -/
def img100x100 : ImageBuffer :=
  ⟨100, 100, List.replicate 10000 ⟨0, 0, 0⟩, by rw [List.length_replicate]⟩

/-- A 0×480 buffer: passes the size check with a zero width. -/
def img0x480 : ImageBuffer := ⟨0, 480, [], by simp⟩

/-- A 320×0 buffer: passes the size check with a zero height. -/
def img320x0 : ImageBuffer := ⟨320, 0, [], by simp⟩

/-- A transport whose second write call (index 1) fails, all earlier and
later ones succeeding. -/
def tFail1 : Transport := ⟨fun k => if k == 1 then none else some 0⟩

/-! ## Helper lemmas: masks and disjoint bit fields -/

theorem and_three (x : Nat) : x &&& 3 = x % 4 :=
  Nat.and_pow_two_sub_one_eq_mod x 2

theorem and_fifteen (x : Nat) : x &&& 15 = x % 16 :=
  Nat.and_pow_two_sub_one_eq_mod x 4

theorem and_sixtythree (x : Nat) : x &&& 63 = x % 64 :=
  Nat.and_pow_two_sub_one_eq_mod x 6

theorem and_twofiftyfive (x : Nat) : x &&& 255 = x % 256 :=
  Nat.and_pow_two_sub_one_eq_mod x 8

/-- Disjoint OR for the byte-1 field split: a 2-bit field shifted left 6
OR-ed with a 6-bit value is their sum. -/
theorem or_disjoint_6 : ∀ a, a < 4 → ∀ b, b < 64 → a * 64 ||| b = a * 64 + b := by
  decide

/-- Disjoint OR for the byte-2 field split. -/
theorem or_disjoint_4 : ∀ a, a < 16 → ∀ b, b < 16 → a * 16 ||| b = a * 16 + b := by
  decide

/-- Disjoint OR for the byte-3 field split. -/
theorem or_disjoint_2 : ∀ a, a < 64 → ∀ b, b < 4 → a * 4 ||| b = a * 4 + b := by
  decide

/-! ## Helper lemmas: the write sequence -/

/-- A single-buffer write sequence always attempts exactly that buffer. -/
theorem writeSeq_snd_singleton (t : Transport) (k : Nat) (b : List Nat) :
    (writeSeq t k [b]).2 = [b] := by
  cases h : t.result k <;> simp [writeSeq, h]

/-- On a transport whose writes all succeed, every buffer is written and
the result is `ok`. -/
theorem writeSeq_allOk (t : Transport) (ht : ∀ k, (t.result k).isSome = true) :
    ∀ bs k, writeSeq t k bs = (OpResult.ok, bs) := by
  intro bs
  induction bs with
  | nil => intro k; rfl
  | cons b bs ih =>
    intro k
    cases h : t.result k with
    | none => exact absurd (ht k) (by simp [h])
    | some n => simp [writeSeq, h, ih (k + 1)]

/-- If the first failing write call is at relative position `i` within
the buffer list, the sequence stops there with `WriteError`, having
attempted exactly the first `i + 1` buffers. -/
theorem writeSeq_failAt (t : Transport) :
    ∀ (bs : List (List Nat)) (k i : Nat),
      (∀ j, j < i → (t.result (k + j)).isSome = true) →
      t.result (k + i) = none →
      i < bs.length →
      writeSeq t k bs = (OpResult.err ScreenError.WriteError, bs.take (i + 1)) := by
  intro bs
  induction bs with
  | nil => intro k i _ _ hlen; simp at hlen
  | cons b bs ih =>
    intro k i hok hfail hlen
    cases i with
    | zero =>
      simp only [Nat.add_zero] at hfail
      simp [writeSeq, hfail]
    | succ i' =>
      have h0 : (t.result k).isSome = true := by
        have := hok 0 (Nat.succ_pos i')
        simpa using this
      cases h : t.result k with
      | none => rw [h] at h0; simp at h0
      | some n =>
        have ih' := ih (k + 1) i'
          (fun j hj => by
            have := hok (j + 1) (Nat.succ_lt_succ hj)
            simpa [Nat.add_assoc, Nat.add_comm 1 j] using this)
          (by simpa [Nat.add_assoc, Nat.add_comm 1 i'] using hfail)
          (by simpa using Nat.lt_of_succ_lt_succ (Nat.succ_lt_succ hlen))
        simp [writeSeq, h, ih']

/-- The write sequence depends on the transport only through which calls
succeed, never through the reported byte counts. -/
theorem writeSeq_respects_isSome (t1 t2 : Transport)
    (h : ∀ k, (t1.result k).isSome = (t2.result k).isSome) :
    ∀ bs k, writeSeq t1 k bs = writeSeq t2 k bs := by
  intro bs
  induction bs with
  | nil => intro k; rfl
  | cons b bs ih =>
    intro k
    have hk := h k
    cases h1 : t1.result k with
    | none =>
      cases h2 : t2.result k with
      | none => simp [writeSeq, h1, h2]
      | some m => rw [h1, h2] at hk; simp at hk
    | some n =>
      cases h2 : t2.result k with
      | none => rw [h1, h2] at hk; simp at hk
      | some m => simp [writeSeq, h1, h2, ih (k + 1)]

/-! ## Helper lemmas: chunking -/

/-- The full chunks and the remainder together are the original list
(worker version, for any sufficient fuel). -/
theorem chunksExactGo_flatten_append (n : Nat) :
    ∀ (fuel : Nat) (xs : List Pixel), xs.length ≤ fuel →
      (chunksExactGo n fuel xs).1.flatten ++ (chunksExactGo n fuel xs).2 = xs := by
  intro fuel
  induction fuel with
  | zero => intro xs _; rfl
  | succ fuel ih =>
    intro xs hfuel
    by_cases h : 0 < n ∧ n ≤ xs.length
    · have ihd := ih (xs.drop n) (by simp only [List.length_drop]; omega)
      simp only [chunksExactGo, if_pos h, List.flatten_cons, List.append_assoc, ihd,
        List.take_append_drop]
    · simp [chunksExactGo, if_neg h]

/-- The full chunks and the remainder together are the original list. -/
theorem chunksExact_flatten_append (n : Nat) (xs : List Pixel) :
    (chunksExact n xs).1.flatten ++ (chunksExact n xs).2 = xs :=
  chunksExactGo_flatten_append n xs.length xs (Nat.le_refl _)

/-- There are `xs.length / n` full chunks (worker version). -/
theorem chunksExactGo_fst_length (n : Nat) (hn : 0 < n) :
    ∀ (fuel : Nat) (xs : List Pixel), xs.length ≤ fuel →
      (chunksExactGo n fuel xs).1.length = xs.length / n := by
  intro fuel
  induction fuel with
  | zero =>
    intro xs hfuel
    have hnil : xs.length = 0 := by omega
    simp [chunksExactGo, Nat.div_eq_of_lt, hnil, Nat.div_eq_of_lt hn]
  | succ fuel ih =>
    intro xs hfuel
    by_cases h : 0 < n ∧ n ≤ xs.length
    · have ihd := ih (xs.drop n) (by simp only [List.length_drop]; omega)
      simp only [chunksExactGo, if_pos h, List.length_cons, ihd, List.length_drop]
      rw [Nat.div_eq_sub_div hn h.2]
    · have hlt : xs.length < n := by omega
      simp [chunksExactGo, if_neg h, Nat.div_eq_of_lt hlt]

/-- There are `xs.length / n` full chunks. -/
theorem chunksExact_fst_length (n : Nat) (hn : 0 < n) (xs : List Pixel) :
    (chunksExact n xs).1.length = xs.length / n :=
  chunksExactGo_fst_length n hn xs.length xs (Nat.le_refl _)

/-- The remainder has `xs.length % n` elements (worker version). -/
theorem chunksExactGo_snd_length (n : Nat) (hn : 0 < n) :
    ∀ (fuel : Nat) (xs : List Pixel), xs.length ≤ fuel →
      (chunksExactGo n fuel xs).2.length = xs.length % n := by
  intro fuel
  induction fuel with
  | zero =>
    intro xs hfuel
    have hnil : xs.length = 0 := by omega
    simp [chunksExactGo, hnil, Nat.zero_mod]
  | succ fuel ih =>
    intro xs hfuel
    by_cases h : 0 < n ∧ n ≤ xs.length
    · have ihd := ih (xs.drop n) (by simp only [List.length_drop]; omega)
      simp only [chunksExactGo, if_pos h, ihd, List.length_drop]
      rw [Nat.mod_eq_sub_mod h.2]
    · have hlt : xs.length < n := by omega
      simp [chunksExactGo, if_neg h, Nat.mod_eq_of_lt hlt]

/-- The remainder has `xs.length % n` elements. -/
theorem chunksExact_snd_length (n : Nat) (hn : 0 < n) (xs : List Pixel) :
    (chunksExact n xs).2.length = xs.length % n :=
  chunksExactGo_snd_length n hn xs.length xs (Nat.le_refl _)

/-- Every full chunk has exactly `n` elements (worker version). -/
theorem chunksExactGo_mem_length (n : Nat) :
    ∀ (fuel : Nat) (xs : List Pixel), ∀ c ∈ (chunksExactGo n fuel xs).1, c.length = n := by
  intro fuel
  induction fuel with
  | zero => intro xs c hc; simp [chunksExactGo] at hc
  | succ fuel ih =>
    intro xs c hc
    by_cases h : 0 < n ∧ n ≤ xs.length
    · rw [chunksExactGo, if_pos h] at hc
      rcases List.mem_cons.mp hc with rfl | hc
      · simp only [List.length_take]
        omega
      · exact ih (xs.drop n) c hc
    · rw [chunksExactGo, if_neg h] at hc
      simp at hc

/-- Every full chunk has exactly `n` elements. -/
theorem chunksExact_mem_length (n : Nat) (xs : List Pixel) :
    ∀ c ∈ (chunksExact n xs).1, c.length = n :=
  chunksExactGo_mem_length n xs.length xs

/-- A pixel chunk serializes to twice as many bytes as it has pixels. -/
theorem chunkBytes_length (c : List Pixel) : (chunkBytes c).length = 2 * c.length := by
  induction c with
  | nil => rfl
  | cons p c ih =>
    simp only [chunkBytes, List.map_cons, List.flatten_cons, List.length_append,
      List.length_cons] at *
    simp [pixelBytes] at *
    omega

/-- Serializing chunks one by one and concatenating equals serializing
the concatenation. -/
theorem flatten_map_chunkBytes (cs : List (List Pixel)) :
    (cs.map chunkBytes).flatten = chunkBytes cs.flatten := by
  induction cs with
  | nil => rfl
  | cons c cs ih =>
    simp only [List.map_cons, List.flatten_cons, ih, chunkBytes, List.map_append,
      List.flatten_append]

/-- Mapping the serialized length over a list of uniformly-sized chunks. -/
theorem map_chunkBytes_length (n : Nat) (cs : List (List Pixel))
    (h : ∀ c ∈ cs, c.length = n) :
    (cs.map chunkBytes).map List.length = List.replicate cs.length (2 * n) := by
  induction cs with
  | nil => rfl
  | cons c cs ih =>
    simp only [List.map_cons, List.length_cons, List.replicate_succ]
    rw [chunkBytes_length, h c (List.mem_cons_self c cs),
      ih (fun c hc => h c (List.mem_cons_of_mem _ hc))]

/-! ## Helper lemmas: the encoder and its decoding -/

/-- For coordinates below 1024 — 10 bits each, which is all the frame can
carry — the `+`-packed source frame coincides byte for byte with the
spec's OR-packed §4.1 layout (for bytes 1–3 only `y`, `ex`, `ey` matter:
their high parts are what can carry into the neighbouring field). -/
theorem sendCommandFrame_eq_specRegionFrame (x y ex ey : Nat) (cmd : ScreenCommand)
    (hy : y < 1024) (hex : ex < 1024) (hey : ey < 1024) :
    sendCommandFrame x y ex ey cmd = specRegionFrame x y ex ey cmd := by
  simp only [sendCommandFrame, specRegionFrame, and_three, and_fifteen,
    and_sixtythree, and_twofiftyfive, Nat.shiftLeft_eq, Nat.shiftRight_eq_div_pow]
  norm_num
  rw [or_disjoint_6 (x % 4) (by omega) (y / 16) (by omega),
    or_disjoint_4 (y % 16) (by omega) (ex / 64) (by omega),
    or_disjoint_2 (ex % 64) (by omega) (ey / 256) (by omega)]
  exact ⟨rfl, rfl, rfl⟩

/-- For coordinates below 1024 the §4.1 inverse decoding recovers the
encoded rectangle and opcode exactly. -/
theorem decode_sendCommandFrame (x y ex ey : Nat) (cmd : ScreenCommand)
    (hx : x < 1024) (hy : y < 1024) (hex : ex < 1024) (hey : ey < 1024) :
    decodeRegionFrame (sendCommandFrame x y ex ey cmd) = (x, y, ex, ey, cmd.toNat) := by
  simp only [sendCommandFrame, decodeRegionFrame, and_three, and_fifteen,
    and_sixtythree, and_twofiftyfive, Nat.shiftLeft_eq, Nat.shiftRight_eq_div_pow,
    Prod.mk.injEq]
  norm_num
  refine ⟨by omega, by omega, by omega, by omega⟩

/-! ## Helper lemmas: the shape of a draw -/

/-- On valid-size, nonzero-dimension images, `draw` is exactly the write
sequence of its buffers. -/
theorem draw_eq_writeSeq (img : ImageBuffer) (t : Transport)
    (hsz : sizeCheck img.width img.height = true)
    (hw : 1 ≤ img.width) (hh : 1 ≤ img.height) :
    draw img t = writeSeq t 0 (drawBuffers img) := by
  have h0 : (img.width == 0 || img.height == 0) = false := by
    simp only [Bool.or_eq_false_iff, beq_eq_false_iff_ne]
    omega
  simp [draw, hsz, h0]

/-- The number of full chunks of a `width × height` buffer is
`height / 8`. -/
theorem chunksExact_fst_length_img (img : ImageBuffer) (hw : 1 ≤ img.width) :
    (chunksExact (img.width * 8) img.pixels).1.length = img.height / 8 := by
  rw [chunksExact_fst_length _ (by omega), img.hsize,
    Nat.mul_div_mul_left img.height 8 (by omega)]

/-- The remainder of a `width × height` buffer has
`width * (height % 8)` pixels. -/
theorem chunksExact_snd_length_img (img : ImageBuffer) (hw : 1 ≤ img.width) :
    (chunksExact (img.width * 8) img.pixels).2.length = img.width * (img.height % 8) := by
  rw [chunksExact_snd_length _ (by omega), img.hsize,
    Nat.mul_mod_mul_left img.width img.height 8]

/-- Byte lengths of the payload buffers that follow the region command:
`height / 8` full buffers of `2 * width * 8` bytes, then — exactly when
`height % 8 ≠ 0` — one final buffer of `2 * width * (height % 8)` bytes. -/
theorem drawBuffers_tail_lengths (img : ImageBuffer) (hw : 1 ≤ img.width) :
    (drawBuffers img).tail.map List.length =
      List.replicate (img.height / 8) (2 * img.width * 8) ++
        (if img.height % 8 = 0 then [] else [2 * img.width * (img.height % 8)]) := by
  have hfull := map_chunkBytes_length (img.width * 8)
    (chunksExact (img.width * 8) img.pixels).1
    (chunksExact_mem_length (img.width * 8) img.pixels)
  have hremlen := chunksExact_snd_length_img img hw
  have h2w8 : 2 * (img.width * 8) = 2 * img.width * 8 := by rw [Nat.mul_assoc]
  simp only [drawBuffers, List.tail_cons, List.map_append]
  rw [hfull, chunksExact_fst_length_img img hw, h2w8]
  by_cases h8 : img.height % 8 = 0
  · have hrem : (chunksExact (img.width * 8) img.pixels).2 = [] := by
      rw [← List.length_eq_zero, hremlen, h8, Nat.mul_zero]
    rw [hrem, if_pos h8]
    simp
  · have hne : (chunksExact (img.width * 8) img.pixels).2.isEmpty = false := by
      rw [List.isEmpty_eq_false]
      intro hemp
      rw [hemp] at hremlen
      simp at hremlen
      omega
    rw [hne, if_neg h8]
    simp only [Bool.false_eq_true, if_false, List.map_cons, List.map_nil,
      chunkBytes_length, hremlen]
    rw [← Nat.mul_assoc]

/-- Serialization distributes over list concatenation. -/
theorem chunkBytes_append (a b : List Pixel) :
    chunkBytes (a ++ b) = chunkBytes a ++ chunkBytes b := by
  simp [chunkBytes, List.map_append, List.flatten_append]

/-- The payload buffers concatenate to the row-major serialization of all
pixels. -/
theorem drawBuffers_tail_flatten (img : ImageBuffer) :
    (drawBuffers img).tail.flatten = (img.pixels.map pixelBytes).flatten := by
  simp only [drawBuffers, List.tail_cons, List.flatten_append, flatten_map_chunkBytes]
  have key : chunkBytes (chunksExact (img.width * 8) img.pixels).1.flatten ++
      chunkBytes (chunksExact (img.width * 8) img.pixels).2 =
      (img.pixels.map pixelBytes).flatten := by
    rw [← chunkBytes_append, chunksExact_flatten_append]
    rfl
  by_cases hrem : (chunksExact (img.width * 8) img.pixels).2 = []
  · rw [hrem] at key ⊢
    simpa [chunkBytes] using key
  · have hne : (chunksExact (img.width * 8) img.pixels).2.isEmpty = false := by
      simp [List.isEmpty_eq_false, hrem]
    rw [hne]
    simpa using key

/-- A transport whose writes always succeed, reporting 4096 bytes
written regardless of the buffer's length. -/
def tFull : Transport := ⟨fun _ => some 4096⟩

/-- For 8-bit channels the packed RGB565 value fits in 16 bits. -/
theorem rgb565_lt (p : Pixel) (hr : p.r < 256) (hg : p.g < 256) (hb : p.b < 256) :
    rgb565 p < 2 ^ 16 := by
  have h1 : (p.r >>> 3) <<< 11 < 2 ^ 16 := by
    rw [Nat.shiftRight_eq_div_pow, Nat.shiftLeft_eq]
    norm_num
    omega
  have h2 : (p.g >>> 2) <<< 5 < 2 ^ 16 := by
    rw [Nat.shiftRight_eq_div_pow, Nat.shiftLeft_eq]
    norm_num
    omega
  have h3 : p.b >>> 3 < 2 ^ 16 := by
    rw [Nat.shiftRight_eq_div_pow]
    norm_num
    omega
  have h12 : ((p.r >>> 3) <<< 11) ||| ((p.g >>> 2) <<< 5) < 2 ^ 16 :=
    Nat.or_lt_two_pow h1 h2
  exact Nat.or_lt_two_pow h12 h3

/-! ## The claims -/

/-- C1, counterexample: at `x = 1, y = 1024` (16-bit coordinates) the
frame the source builds differs from the OR-packed frame the claim
describes — the source's `+` carries out of the 2-bit field of byte 1
(byte value 128 instead of 64). -/
theorem claim1_counterexample :
    (send_command tOk 1 1024 0 0 ScreenCommand.Clear).2 ≠
      [specRegionFrame 1 1024 0 0 ScreenCommand.Clear] := by
  decide

/-- C1 (amended): for every 16-bit `x` and for `y`, `ex`, `ey` below 1024
(where no field of the packing can carry into its neighbour, so `+`
agrees with `|`), `send_command` deterministically builds exactly the
6-byte frame of the claimed layout and writes it to the transport in a
single write. -/
theorem claim1_frame_layout (t : Transport) (x y ex ey : Nat) (cmd : ScreenCommand)
    (hx : x < 65536) (hy : y < 1024) (hex : ex < 1024) (hey : ey < 1024) :
    (send_command t x y ex ey cmd).2 = [specRegionFrame x y ex ey cmd] := by
  rw [send_command, writeSeq_snd_singleton,
    sendCommandFrame_eq_specRegionFrame x y ex ey cmd hy hex hey]

/-- C1, witness at `(x, y, ex, ey) = (1000, 2, 3, 4)`. -/
theorem claim1_witness :
    (send_command tOk 1000 2 3 4 ScreenCommand.DisplayBitmap).2 =
      [specRegionFrame 1000 2 3 4 ScreenCommand.DisplayBitmap] :=
  claim1_frame_layout tOk 1000 2 3 4 ScreenCommand.DisplayBitmap
    (by decide) (by decide) (by decide) (by decide)

/-- C2, counterexample: the 0×480 buffer passes `draw`'s size check, yet
`draw` performs zero writes and does not return Ok (the `width - 1`
underflow aborts it), against the claimed one region write plus
`ceil(480/8) = 60` payload writes ending in Ok. -/
theorem claim2_counterexample :
    sizeCheck img0x480.width img0x480.height = true ∧
    (draw img0x480 tOk).1 ≠ OpResult.ok ∧
    (draw img0x480 tOk).2.length = 0 := by
  decide

/-- C2 (amended): for every image buffer with nonzero width and height
whose dimensions pass `draw`'s size check, on a transport whose writes
all succeed, `draw` returns Ok and issues exactly one region-command
write encoding `(0, 0, width-1, height-1)` with opcode DisplayBitmap,
followed by exactly `ceil(height/8)` payload writes: each of the first
`height/8` is `2*width*8` bytes, and when `height % 8 ≠ 0` there is one
final shorter write of `2*width*(height % 8)` bytes.  (The nonzero
restriction is forced: zero-dimension buffers can pass the check and
abort on the `width - 1` underflow instead.) -/
theorem claim2_draw_write_structure (img : ImageBuffer) (t : Transport)
    (hsz : sizeCheck img.width img.height = true)
    (hw : 1 ≤ img.width) (hh : 1 ≤ img.height)
    (ht : ∀ k, (t.result k).isSome = true) :
    (draw img t).1 = OpResult.ok ∧
    (draw img t).2.head? = some (sendCommandFrame 0 0 (img.width - 1) (img.height - 1)
      ScreenCommand.DisplayBitmap) ∧
    (draw img t).2.tail.map List.length =
      List.replicate (img.height / 8) (2 * img.width * 8) ++
        (if img.height % 8 = 0 then [] else [2 * img.width * (img.height % 8)]) ∧
    (draw img t).2.tail.length = (img.height + 7) / 8 := by
  have hd : draw img t = (OpResult.ok, drawBuffers img) := by
    rw [draw_eq_writeSeq img t hsz hw hh]
    exact writeSeq_allOk t ht (drawBuffers img) 0
  rw [hd]
  refine ⟨rfl, rfl, drawBuffers_tail_lengths img hw, ?_⟩
  have hlen := congrArg List.length (drawBuffers_tail_lengths img hw)
  rw [List.length_map, List.length_append, List.length_replicate] at hlen
  show (drawBuffers img).tail.length = (img.height + 7) / 8
  by_cases h8 : img.height % 8 = 0
  · rw [if_pos h8] at hlen
    simp only [List.length_nil] at hlen
    omega
  · rw [if_neg h8] at hlen
    simp only [List.length_cons, List.length_nil] at hlen
    omega

/-- C2, witness: the 320×1 buffer (the size check passes on its width)
on an all-Ok transport. -/
theorem claim2_witness :
    (draw img320x1 tOk).1 = OpResult.ok ∧
    (draw img320x1 tOk).2.head? = some (sendCommandFrame 0 0 (img320x1.width - 1)
      (img320x1.height - 1) ScreenCommand.DisplayBitmap) ∧
    (draw img320x1 tOk).2.tail.map List.length =
      List.replicate (img320x1.height / 8) (2 * img320x1.width * 8) ++
        (if img320x1.height % 8 = 0 then [] else [2 * img320x1.width * (img320x1.height % 8)]) ∧
    (draw img320x1 tOk).2.tail.length = (img320x1.height + 7) / 8 :=
  claim2_draw_write_structure img320x1 tOk (by decide) (by decide) (by decide)
    (fun _ => rfl)

/-- C3: the pixel payload `draw` emits is the row-major concatenation of
each pixel's two serialized bytes; for 8-bit pixels those two bytes are
the RGB565 value `((r >> 3) << 11) | ((g >> 2) << 5) | (b >> 3)` low
byte first; and the conversion is not injective — `r = 0` and `r = 4`
yield the same 5-bit red field. -/
theorem claim3_rgb565_serialization :
    (∀ (img : ImageBuffer) (t : Transport),
        sizeCheck img.width img.height = true → 1 ≤ img.width → 1 ≤ img.height →
        (∀ k, (t.result k).isSome = true) →
        (draw img t).2.tail.flatten = (img.pixels.map pixelBytes).flatten) ∧
    (∀ p : Pixel, p.r < 256 → p.g < 256 → p.b < 256 →
        pixelBytes p = [rgb565 p % 256, rgb565 p / 256]) ∧
    rgb565 ⟨0, 10, 20⟩ = rgb565 ⟨4, 10, 20⟩ ∧
    Pixel.mk 0 10 20 ≠ Pixel.mk 4 10 20 := by
  refine ⟨?_, ?_, by decide, by decide⟩
  · intro img t hsz hw hh ht
    have hd : draw img t = (OpResult.ok, drawBuffers img) := by
      rw [draw_eq_writeSeq img t hsz hw hh]
      exact writeSeq_allOk t ht (drawBuffers img) 0
    rw [hd]
    exact drawBuffers_tail_flatten img
  · intro p hr hg hb
    have hlt := rgb565_lt p hr hg hb
    simp only [pixelBytes, and_twofiftyfive]
    have hhi : (rgb565 p >>> 8) % 256 = rgb565 p / 256 := by
      rw [Nat.shiftRight_eq_div_pow]
      norm_num
      omega
    rw [hhi]

/-- C3, witness: the payload identity at the 320×1 buffer and the byte
split at the pixel `(255, 128, 7)`. -/
theorem claim3_witness :
    (draw img320x1 tOk).2.tail.flatten = (img320x1.pixels.map pixelBytes).flatten ∧
    pixelBytes ⟨255, 128, 7⟩ = [rgb565 ⟨255, 128, 7⟩ % 256, rgb565 ⟨255, 128, 7⟩ / 256] :=
  ⟨claim3_rgb565_serialization.1 img320x1 tOk (by decide) (by decide) (by decide)
      (fun _ => rfl),
    claim3_rgb565_serialization.2.1 ⟨255, 128, 7⟩ (by decide) (by decide) (by decide)⟩

/-- C4, counterexample: the inverse decoding does not recover
`(x mod 2^14, y, ex mod 2^14, ey)` on the claimed 14/16-bit ranges: each
of `x`, `y`, `ex`, `ey` equal to 1024 (within those ranges) is already
lost by the encoding. -/
theorem claim4_counterexample :
    decodeRegionFrame (sendCommandFrame 1024 0 0 0 ScreenCommand.Clear) ≠
      (1024 % 2 ^ 14, 0, 0, 0, ScreenCommand.Clear.toNat) ∧
    decodeRegionFrame (sendCommandFrame 0 1024 0 0 ScreenCommand.Clear) ≠
      (0 % 2 ^ 14, 1024, 0, 0, ScreenCommand.Clear.toNat) ∧
    decodeRegionFrame (sendCommandFrame 0 0 1024 0 ScreenCommand.Clear) ≠
      (0, 0, 1024 % 2 ^ 14, 0, ScreenCommand.Clear.toNat) ∧
    decodeRegionFrame (sendCommandFrame 0 0 0 1024 ScreenCommand.Clear) ≠
      (0, 0, 0, 1024, ScreenCommand.Clear.toNat) := by
  decide

/-- C4 (amended): for coordinates `x, y, ex, ey` all below 1024 — the 10
bits per coordinate that the 6-byte frame actually allocates — decoding
the frame produced by `send_command` with the inverse shifts and masks
of the §4.1 layout recovers `(x, y, ex, ey)` and the opcode exactly. -/
theorem claim4_decode_recovers (x y ex ey : Nat) (cmd : ScreenCommand)
    (hx : x < 1024) (hy : y < 1024) (hex : ex < 1024) (hey : ey < 1024) :
    decodeRegionFrame (sendCommandFrame x y ex ey cmd) = (x, y, ex, ey, cmd.toNat) :=
  decode_sendCommandFrame x y ex ey cmd hx hy hex hey

/-- C4, witness at `(1000, 1023, 999, 512)` with opcode DisplayBitmap. -/
theorem claim4_witness :
    decodeRegionFrame (sendCommandFrame 1000 1023 999 512 ScreenCommand.DisplayBitmap) =
      (1000, 1023, 999, 512, ScreenCommand.DisplayBitmap.toNat) :=
  claim4_decode_recovers 1000 1023 999 512 ScreenCommand.DisplayBitmap
    (by decide) (by decide) (by decide) (by decide)

/-- C5, counterexample: 320×1 is not a valid panel resolution in either
orientation, yet `draw` does not fail with WrongImageSize and does
write — the disjunctive check is satisfied by the width alone. -/
theorem claim5_counterexample :
    ¬((draw img320x1 tOk).1 = OpResult.err ScreenError.WrongImageSize ∧
      (draw img320x1 tOk).2 = []) := by
  have hd : draw img320x1 tOk = (OpResult.ok, drawBuffers img320x1) := by
    rw [draw_eq_writeSeq img320x1 tOk (by decide) (by decide) (by decide)]
    exact writeSeq_allOk tOk (fun _ => rfl) (drawBuffers img320x1) 0
  rw [hd]
  intro hcontra
  exact OpResult.noConfusion hcontra.1

/-- C5 (amended): for every image buffer with width not in {320, 480}
and height not in {320, 480} — exactly the buffers the disjunctive check
rejects, 100×100 included — `draw` returns WrongImageSize and performs
zero transport writes. -/
theorem claim5_wrong_size_rejected (img : ImageBuffer) (t : Transport)
    (hw320 : img.width ≠ 320) (hw480 : img.width ≠ 480)
    (hh320 : img.height ≠ 320) (hh480 : img.height ≠ 480) :
    draw img t = (OpResult.err ScreenError.WrongImageSize, []) := by
  have hsz : sizeCheck img.width img.height = false := by
    simp only [sizeCheck, WIDTH, HEIGHT, Bool.or_eq_false_iff, beq_eq_false_iff_ne]
    exact ⟨⟨hw320, hh480⟩, ⟨hw480, hh320⟩⟩
  simp [draw, hsz]

/-- C5, witness: the 100×100 buffer is rejected with zero writes. -/
theorem claim5_witness :
    draw img100x100 tOk = (OpResult.err ScreenError.WrongImageSize, []) :=
  claim5_wrong_size_rejected img100x100 tOk (by decide) (by decide) (by decide) (by decide)

/-- C6: when the transport's write call at index `i` (0-based) fails and
all earlier calls succeed, `draw` — past its size check, on a buffer
with nonzero dimensions — returns WriteError having attempted exactly
the first `i + 1` of its buffers: no further write after the failing
one, no retry. -/
theorem claim6_write_failure_aborts (img : ImageBuffer) (t : Transport) (i : Nat)
    (hsz : sizeCheck img.width img.height = true)
    (hw : 1 ≤ img.width) (hh : 1 ≤ img.height)
    (hok : ∀ j, j < i → (t.result j).isSome = true)
    (hfail : t.result i = none)
    (hi : i < (drawBuffers img).length) :
    draw img t = (OpResult.err ScreenError.WriteError, (drawBuffers img).take (i + 1)) := by
  rw [draw_eq_writeSeq img t hsz hw hh]
  exact writeSeq_failAt t (drawBuffers img) 0 i
    (fun j hj => by simpa using hok j hj) (by simpa using hfail) hi

set_option maxRecDepth 100000 in
/-- C6, witness: on the 320×1 buffer (two write calls: region command
then one payload chunk) with the transport failing at call index 1,
`draw` stops with WriteError after attempting exactly two buffers. -/
theorem claim6_witness :
    draw img320x1 tFail1 =
      (OpResult.err ScreenError.WriteError, (drawBuffers img320x1).take 2) :=
  claim6_write_failure_aborts img320x1 tFail1 1 (by decide) (by decide) (by decide)
    (by decide) rfl (by decide)

/-- C7: for every orientation the operation writes, in a single write,
exactly the 11-byte sequence `[0,0,0,0,0,121,100+code,3,200,4,0]`; in
particular Landscape (code 2) gives `[0,0,0,0,0,121,102,3,200,4,0]`. -/
theorem claim7_orientation_frame (t : Transport) (o : Orientation) :
    (orientation t o).2 = [[0, 0, 0, 0, 0, 121, 100 + o.toNat, 3, 200, 4, 0]] ∧
    (orientation t Orientation.Landscape).2 =
      [[0, 0, 0, 0, 0, 121, 102, 3, 200, 4, 0]] := by
  constructor
  · rw [orientation, writeSeq_snd_singleton]
    cases o <;> rfl
  · rw [orientation, writeSeq_snd_singleton]
    rfl

/-- C8: `brightness level` sends a single region command with opcode
SetBrightness = 110 whose x-field holds `255 - level` and whose other
coordinate fields are zero (read back by the §4.1 inverse decoding). -/
theorem claim8_brightness_inverted (t : Transport) (level : Nat) (hlev : level < 256) :
    (brightness t level).2 =
      [sendCommandFrame (255 - level) 0 0 0 ScreenCommand.SetBrigthness] ∧
    decodeRegionFrame (sendCommandFrame (255 - level) 0 0 0 ScreenCommand.SetBrigthness) =
      (255 - level, 0, 0, 0, 110) := by
  constructor
  · rw [brightness, send_command, writeSeq_snd_singleton]
  · exact decode_sendCommandFrame (255 - level) 0 0 0 ScreenCommand.SetBrigthness
      (by omega) (by omega) (by omega) (by omega)

/-- C8, witness: `brightness 0` encodes level 255 into the x-field. -/
theorem claim8_witness :
    (brightness tOk 0).2 =
      [sendCommandFrame 255 0 0 0 ScreenCommand.SetBrigthness] ∧
    decodeRegionFrame (sendCommandFrame 255 0 0 0 ScreenCommand.SetBrigthness) =
      (255, 0, 0, 0, 110) :=
  claim8_brightness_inverted tOk 0 (by decide)

/-- C9: every operation ignores the byte count a successful write
reports: two transports whose calls succeed and fail identically — even
if one reports partial writes — produce identical results and identical
write sequences for `send_command`, `orientation` and `draw`. -/
theorem claim9_byte_count_ignored (t1 t2 : Transport)
    (h : ∀ k, (t1.result k).isSome = (t2.result k).isSome) :
    (∀ x y ex ey cmd, send_command t1 x y ex ey cmd = send_command t2 x y ex ey cmd) ∧
    (∀ o, orientation t1 o = orientation t2 o) ∧
    (∀ img, draw img t1 = draw img t2) := by
  refine ⟨?_, ?_, ?_⟩
  · intro x y ex ey cmd
    exact writeSeq_respects_isSome t1 t2 h _ 0
  · intro o
    exact writeSeq_respects_isSome t1 t2 h _ 0
  · intro img
    simp only [draw, writeSeq_respects_isSome t1 t2 h (drawBuffers img) 0]

/-- C9, witness: a transport reporting 0 bytes written on every call (a
partial write for every nonempty buffer) behaves exactly like one
reporting 4096. -/
theorem claim9_witness :
    draw img320x1 tOk = draw img320x1 tFull ∧
    orientation tOk Orientation.Landscape = orientation tFull Orientation.Landscape ∧
    send_command tOk 1 2 3 4 ScreenCommand.Clear =
      send_command tFull 1 2 3 4 ScreenCommand.Clear := by
  have h := claim9_byte_count_ignored tOk tFull (fun _ => rfl)
  exact ⟨h.2.2 img320x1, h.2.1 Orientation.Landscape, h.1 1 2 3 4 ScreenCommand.Clear⟩

/-- C10: the 0×480 and 320×0 buffers pass `draw`'s disjunctive size
check (one matching dimension suffices), the WrongImageSize branch is
not taken, and `draw` then hits the unguarded `width - 1`
(resp. `height - 1`) subtraction on an unsigned zero — modelled as the
checked-arithmetic panic — so `draw` is not total over the buffers that
pass its own validation. -/
theorem claim10_zero_dimension_underflow (t : Transport) :
    sizeCheck img0x480.width img0x480.height = true ∧
    draw img0x480 t = (OpResult.panicked, []) ∧
    sizeCheck img320x0.width img320x0.height = true ∧
    draw img320x0 t = (OpResult.panicked, []) :=
  ⟨rfl, rfl, rfl, rfl⟩

end TuringScreen
